import Mathlib

/-!
Verification of the roadhero-dashboard core logic.

Shallow embedding of the route-construction and live-synchronization logic
of the dashboard: the greedy nearest-neighbor stop ordering, the OSRM route
fetch with its straight-line fallback, the route render lifecycle state
machine, the ticket sync controller driven by the realtime change feed, and
the two derived ticket orderings (map panel and list panel).

Numeric conventions: JavaScript numbers are embedded as exact rationals
(coordinates, severity scores) or integers (timestamps, comparator values).
The source compares Math.sqrt of sums of squares; since the square root is
strictly monotone on nonnegative reals, comparisons of squared distances
agree with comparisons of the distances themselves, so distances are
represented by their squares.  JavaScript Array.prototype.sort is stable
(ECMAScript 2019), and the output of a stable sort for a total preorder
comparator is unique, so it is embedded as Mathlib insertionSort, which is
stable with the same convention.
-/

namespace RoadHero

/-! ### Data model (types from RealtimeMap.tsx, TicketsPanel.tsx, page controller) -/

/-- Severity of a pothole report, from the Pothole type in the source. -/
inductive Severity
  | LOW
  | MEDIUM
  | HIGH
deriving DecidableEq, Repr

/-- Lifecycle status of a ticket, from the Ticket type in the source. -/
inductive Status
  | ACTIVE
  | COMPLETE
deriving DecidableEq, Repr

/-- Pothole metadata embedded in a ticket.  Latitude and longitude are signed
degrees; severity_score is the optional numeric score used by the list
panel. -/
structure Pothole where
  latitude : ℚ
  longitude : ℚ
  severity : Severity
  image_url : Option String := none
  description : Option String := none
  severity_score : Option ℚ := none
deriving DecidableEq, Repr

/-- A ticket.  created_at is embedded as the epoch value that
new Date(created_at).getTime() yields in the source comparator. -/
structure Ticket where
  id : String
  status : Status
  created_at : ℤ
  pothole_metadata : Pothole
deriving DecidableEq, Repr

/-! ### TicketSyncController (page controller: fetchTickets and the realtime
subscription handler) -/

/-- Outcome of one supabase read query for the full ticket list. -/
inductive FetchOutcome
  | success (data : List Ticket)
  | failure
deriving DecidableEq, Repr

/-- Kind of a change-feed event. -/
inductive EventType
  | INSERT
  | UPDATE
  | DELETE
deriving DecidableEq, Repr

/-- A change-feed payload.  oldId embeds payload.old.id, which the source
reads only in the DELETE branch. -/
structure ChangePayload where
  eventType : EventType
  oldId : String
deriving DecidableEq, Repr

/-- fetchTickets from the page controller: on a query error the handler
returns early and the canonical list is untouched; on success the data
wholesale replaces the canonical list. -/
def fetchTickets (outcome : FetchOutcome) (tickets : List Ticket) : List Ticket :=
  match outcome with
  | FetchOutcome.success data => data
  | FetchOutcome.failure => tickets

/-- The realtime subscription handler from the page controller: INSERT and
UPDATE trigger a full re-fetch (whose outcome is the oracle argument);
DELETE filters the matching id out of the current list.  The boolean records
whether a re-fetch was issued. -/
def onChangeEvent (p : ChangePayload) (outcome : FetchOutcome)
    (tickets : List Ticket) : List Ticket × Bool :=
  match p.eventType with
  | EventType.INSERT => (fetchTickets outcome tickets, true)
  | EventType.UPDATE => (fetchTickets outcome tickets, true)
  | EventType.DELETE =>
      (tickets.filter (fun t => decide (t.id ≠ p.oldId)), false)

/-! ### Status updates (updateStatus in TicketsPanel, handleUpdate in the
page controller) -/

/-- Result of the remote supabase status update. -/
inductive RemoteResult
  | ok
  | err
deriving DecidableEq, Repr

/-- handleUpdate from the page controller: rewrite the status of every
ticket whose id matches, keeping all other fields. -/
def handleUpdate (id : String) (status : Status) (tickets : List Ticket) :
    List Ticket :=
  tickets.map (fun t => if t.id = id then { t with status := status } else t)

/-- updateStatus from TicketsPanel combined with the onUpdate callback: the
local optimistic update runs only when the remote update reported no
error. -/
def updateStatus (remote : RemoteResult) (id : String) (newStatus : Status)
    (tickets : List Ticket) : List Ticket :=
  match remote with
  | RemoteResult.ok => handleUpdate id newStatus tickets
  | RemoteResult.err => tickets

/-! ### GeometryOrderer (the greedy nearest-neighbor block of RouteLine) -/

/-- A coordinate pair in (longitude, latitude) order, as built by the
source from the active tickets. -/
abbrev Coord := ℚ × ℚ

/-- Squared Euclidean distance in raw degree space.  The source compares
Math.sqrt of this quantity; the square root is strictly monotone on
nonnegative reals, so all comparisons agree. -/
def dist2 (p q : Coord) : ℚ :=
  (q.1 - p.1) * (q.1 - p.1) + (q.2 - p.2) * (q.2 - p.2)

/-- The forEach scan of the source: walk the unvisited list with a running
index, a running minimum distance (none embeds the initial Infinity, which
every actual distance beats) and the index of the current best.  A later
element replaces the best only when its distance is strictly smaller, so on
an exact tie the first-encountered minimum is kept. -/
def nearestScan (last : Coord) : List Coord → Nat → Option ℚ → Nat → Nat
  | [], _, _, best => best
  | c :: rest, idx, minDist, best =>
      match minDist with
      | none => nearestScan last rest (idx + 1) (some (dist2 last c)) idx
      | some m =>
          if dist2 last c < m then
            nearestScan last rest (idx + 1) (some (dist2 last c)) idx
          else
            nearestScan last rest (idx + 1) (some m) best

/-- Index of the nearest unvisited coordinate, with initial state
idx = 0, minDist = Infinity, nearestIdx = 0 as in the source. -/
def nearestIdx (last : Coord) (unvisited : List Coord) : Nat :=
  nearestScan last unvisited 0 none 0

/-- The while loop of the source: repeatedly splice the nearest unvisited
coordinate out of the unvisited list and append it.  The fuel argument is
the length of the unvisited list, which is exactly the number of loop
iterations; the getD default is never reached because the chosen index is
always in range. -/
def nnLoop : Coord → Nat → List Coord → List Coord
  | _, 0, _ => []
  | _, _ + 1, [] => []
  | last, fuel + 1, c :: rest =>
      let i := nearestIdx last (c :: rest)
      let p := (c :: rest).getD i c
      p :: nnLoop p fuel ((c :: rest).eraseIdx i)

/-- The nearest-neighbor ordering of the source: shift the first coordinate
off, then run the greedy loop over the remaining unvisited list. -/
def optimizeOrder : List Coord → List Coord
  | [] => []
  | c :: rest => c :: nnLoop c rest.length rest

/-- The ordering contract the spec states for the greedy traversal:
NNChain last unvisited out holds when out visits exactly the unvisited
stops, each time choosing a stop of minimum distance to the previously
appended stop, and on an exact distance tie the stop at the smallest index
of the unvisited list (every earlier index is strictly farther); the chosen
stop is then removed from the unvisited list. -/
inductive NNChain : Coord → List Coord → List Coord → Prop
  | nil (last : Coord) : NNChain last [] []
  | cons (last : Coord) (unvisited : List Coord) (p : Coord)
      (out : List Coord) (i : Nat) :
      unvisited[i]? = some p →
      (∀ q ∈ unvisited, dist2 last p ≤ dist2 last q) →
      (∀ k, k < i → ∀ q, unvisited[k]? = some q →
        dist2 last p < dist2 last q) →
      NNChain p (unvisited.eraseIdx i) out →
      NNChain last unvisited (p :: out)

/-! ### RouteFetcher (fetchOptimalRoute in RouteLine) -/

/-- The order of coordinates placed in the request URL: the greedy
nearest-neighbor order when optimizeRoute is on, the incoming order
otherwise. -/
def routeOrder (optimizeRoute : Bool) (coords : List Coord) : List Coord :=
  if optimizeRoute then optimizeOrder coords else coords

/-- One route of the OSRM response body; coordinates are (lon, lat) pairs
of the geojson geometry. -/
structure OsrmRoute where
  coordinates : List Coord
deriving DecidableEq, Repr

/-- The OSRM response body: a status code string and a list of routes. -/
structure OsrmData where
  code : String
  routes : List OsrmRoute
deriving DecidableEq, Repr

/-- Result of the fetch plus json parse: a parsed body, or a thrown network
or parse error. -/
inductive FetchResult
  | ok (data : OsrmData)
  | networkError
deriving DecidableEq, Repr

/-- Provenance of the drawn polyline. -/
inductive Provenance
  | service
  | fallback
deriving DecidableEq, Repr

/-- The polyline the route effect draws: its points in leaflet (lat, lon)
order, the stroke color, and the provenance of its geometry. -/
structure RouteOutcome where
  points : List Coord
  color : String
  provenance : Provenance
deriving DecidableEq, Repr

/-- Swap a (lon, lat) pair into leaflet (lat, lon) order, as the source map
over coordinates does. -/
def swap (c : Coord) : Coord := (c.2, c.1)

/-- fetchOptimalRoute from RouteLine as a function of the fetch result: on
code Ok with a first route, draw the swapped service geometry; every other
outcome (network error, non-Ok code, empty route list) reaches the catch
block, which draws straight lines through the swapped coords list, the
incoming coordinates in their incoming order. -/
def fetchOptimalRoute (optimizeRoute : Bool) (coords : List Coord)
    (resp : FetchResult) : RouteOutcome :=
  match resp with
  | FetchResult.ok data =>
      match data.routes with
      | route :: _ =>
          if data.code = "Ok" then
            { points := route.coordinates.map swap,
              color := if optimizeRoute then "#10b981" else "#2563eb",
              provenance := Provenance.service }
          else
            { points := coords.map swap, color := "#4b5563",
              provenance := Provenance.fallback }
      | [] =>
          { points := coords.map swap, color := "#4b5563",
            provenance := Provenance.fallback }
  | FetchResult.networkError =>
      { points := coords.map swap, color := "#4b5563",
        provenance := Provenance.fallback }

/-- A fetch outcome that reaches the catch block: a thrown error, a non-Ok
code, or an empty route list. -/
def FetchFailed : FetchResult → Prop
  | FetchResult.ok data => ¬(data.code = "Ok" ∧ data.routes ≠ [])
  | FetchResult.networkError => True

/-! ### Derived ticket orderings (activeTickets in RealtimeMap, sorted in
TicketsPanel).  JavaScript Array.prototype.sort is stable, and a stable sort
for a total preorder comparator has a unique output, so both sorts are
embedded as Mathlib insertionSort, which is stable with the same
convention: a comparator value of at most zero keeps the left element
first. -/

/-- The severityWeights map of RealtimeMap. -/
def severityWeights : Severity → ℤ
  | Severity.HIGH => 3
  | Severity.MEDIUM => 2
  | Severity.LOW => 1

/-- The activeTickets comparator: severityDiff, or on a zero severityDiff
(JavaScript falsiness of 0) the difference of creation times, newest
first. -/
def ticketCompare (a b : Ticket) : ℤ :=
  if severityWeights b.pothole_metadata.severity -
      severityWeights a.pothole_metadata.severity ≠ 0 then
    severityWeights b.pothole_metadata.severity -
      severityWeights a.pothole_metadata.severity
  else
    b.created_at - a.created_at

/-- The sort relation induced by the comparator: a stays before b exactly
when the comparator is nonpositive. -/
def ticketLE (a b : Ticket) : Prop := ticketCompare a b ≤ 0

instance : DecidableRel ticketLE := fun a b =>
  inferInstanceAs (Decidable (ticketCompare a b ≤ 0))

instance : IsTotal Ticket ticketLE := ⟨by
  intro a b
  simp only [ticketLE, ticketCompare]
  split_ifs <;> omega⟩

instance : IsTrans Ticket ticketLE := ⟨by
  intro a b c hab hbc
  simp only [ticketLE, ticketCompare] at hab hbc ⊢
  split_ifs at hab hbc ⊢ <;> omega⟩

/-- The activeTickets derivation of RealtimeMap: filter the ACTIVE tickets,
then stable-sort by the comparator. -/
def activeTickets (tickets : List Ticket) : List Ticket :=
  List.insertionSort ticketLE
    (tickets.filter (fun t => decide (t.status = Status.ACTIVE)))

/-- The ordering the spec states for the active-ticket derivation: severity
descending (HIGH over MEDIUM over LOW), ties broken by creation timestamp
descending. -/
def SpecOrder (a b : Ticket) : Prop :=
  severityWeights b.pothole_metadata.severity <
      severityWeights a.pothole_metadata.severity ∨
    (b.pothole_metadata.severity = a.pothole_metadata.severity ∧
      b.created_at ≤ a.created_at)

/-- The score of a ticket as the list panel reads it: severity_score, with
an absent score read as 0 (the ?? 0 default). -/
def scoreOf (t : Ticket) : ℚ := t.pothole_metadata.severity_score.getD 0

/-- The list panel comparator relation: a stays before b exactly when
(b.score ?? 0) - (a.score ?? 0) is nonpositive. -/
def panelLE (a b : Ticket) : Prop := scoreOf b - scoreOf a ≤ 0

instance : DecidableRel panelLE := fun a b =>
  inferInstanceAs (Decidable (scoreOf b - scoreOf a ≤ 0))

instance : IsTotal Ticket panelLE := ⟨by
  intro a b
  simp only [panelLE, sub_nonpos]
  exact le_total (scoreOf b) (scoreOf a)⟩

instance : IsTrans Ticket panelLE := ⟨by
  intro a b c hab hbc
  simp only [panelLE, sub_nonpos] at hab hbc ⊢
  exact le_trans hbc hab⟩

/-- The sorted list of TicketsPanel: stable-sort every ticket (no status
filter) by severity_score descending. -/
def sorted (tickets : List Ticket) : List Ticket :=
  List.insertionSort panelLE tickets

/-! ### RouteRenderLifecycle (the second RouteLine variant: effect body,
effect cleanup, and the two fetch completion paths with their liveness
check on isCalculatingRef).  Leaflet layers are identified by the trigger
whose completion installed them plus a flag separating the polyline from
its arrow decorator; a leaflet map holds each layer at most once. -/

/-- A map layer: the polyline (deco = false) or the arrow decorator
(deco = true) installed by the completion of the fetch started by trigger
tid. -/
structure Layer where
  tid : Nat
  deco : Bool
deriving DecidableEq, Repr

/-- The shared state of one RouteLine instance: the isCalculatingRef flag,
the loading signal sent through onLoadingChange, the layers attached to the
map, and the two layer refs. -/
structure MapState where
  isCalculating : Bool
  loading : Bool
  layers : List Layer
  routePolyline : Option Layer
  decorator : Option Layer
deriving DecidableEq, Repr

/-- stopLoading: clear the flag and the loading signal. -/
def stopLoading (s : MapState) : MapState :=
  { s with isCalculating := false, loading := false }

/-- map.removeLayer guarded by map.hasLayer, for one ref. -/
def removeIfHas (layers : List Layer) (ref : Option Layer) : List Layer :=
  match ref with
  | none => layers
  | some l => if l ∈ layers then layers.erase l else layers

/-- clearRouteLayers: remove the polyline ref and the decorator ref from
the map when attached, then null both refs. -/
def clearRouteLayers (s : MapState) : MapState :=
  { s with
    layers := removeIfHas (removeIfHas s.layers s.routePolyline) s.decorator,
    routePolyline := none,
    decorator := none }

/-- The synchronous body of the effect for n active tickets: below two
tickets it clears the route layers, stops loading and returns without
starting a calculation; otherwise it raises the flag and the loading signal
and launches the fetch.  The boolean records whether a fetch was
launched. -/
def effectRun (n : Nat) (s : MapState) : MapState × Bool :=
  if n < 2 then (stopLoading (clearRouteLayers s), false)
  else ({ s with isCalculating := true, loading := true }, true)

/-- The effect cleanup: stop loading, clear the timeout, remove the route
layers. -/
def effectCleanup (s : MapState) : MapState :=
  clearRouteLayers (stopLoading s)

/-- How a fetch settles: an Ok body with a first route, or the thrown path
(network error, malformed body, non-Ok code). -/
inductive FetchEv
  | okRoute
  | thrown
deriving DecidableEq, Repr

/-- Completion of the fetch started by trigger tid: both paths first check
the isCalculatingRef flag and bail out when it is down; otherwise the
success path installs the polyline and the decorator and the catch path
installs the fallback polyline, and both stop loading. -/
def resolveFetch (tid : Nat) (r : FetchEv) (s : MapState) : MapState :=
  match r with
  | FetchEv.okRoute =>
      if s.isCalculating then
        stopLoading
          { s with
            layers := s.layers ++ [⟨tid, false⟩] ++ [⟨tid, true⟩],
            routePolyline := some ⟨tid, false⟩,
            decorator := some ⟨tid, true⟩ }
      else s
  | FetchEv.thrown =>
      if s.isCalculating then
        stopLoading
          { s with
            layers := s.layers ++ [⟨tid, false⟩],
            routePolyline := some ⟨tid, false⟩ }
      else s

/-- An event of the cooperative schedule: an effect body runs with n active
tickets, an effect cleanup runs, or the fetch of trigger tid settles. -/
inductive LifecycleEv
  | run (n : Nat)
  | cleanup
  | settle (tid : Nat) (r : FetchEv)
deriving DecidableEq, Repr

/-- One scheduler step. -/
def step (s : MapState) : LifecycleEv → MapState
  | LifecycleEv.run n => (effectRun n s).1
  | LifecycleEv.cleanup => effectCleanup s
  | LifecycleEv.settle tid r => resolveFetch tid r s

/-- Run a whole schedule. -/
def runTrace (s : MapState) (evs : List LifecycleEv) : MapState :=
  evs.foldl step s

/-- The state of a freshly mounted RouteLine. -/
def initState : MapState :=
  { isCalculating := false, loading := false, layers := [],
    routePolyline := none, decorator := none }

/-- The interleaving of claim C4: trigger 1 starts a calculation with two
stops, the dependencies change so the cleanup runs and trigger 2 starts a
second calculation while fetch 1 is still in flight, then fetch 1 settles
before fetch 2. -/
def raceTrace : List LifecycleEv :=
  [LifecycleEv.run 2, LifecycleEv.cleanup, LifecycleEv.run 2,
   LifecycleEv.settle 1 FetchEv.okRoute, LifecycleEv.settle 2 FetchEv.okRoute]

/-! ### Concrete fixtures used by witnesses -/

/-- Three collinear stops whose nearest-neighbor order differs from their
incoming order: from (0,0) the nearest of (5,0) and (1,0) is (1,0). -/
def cexCoords : List Coord := [(0, 0), (5, 0), (1, 0)]

/-- A LOW severity pothole with a large severity score. -/
def pScoreBig : Pothole :=
  { latitude := 0, longitude := 0, severity := Severity.LOW,
    severity_score := some 10 }

/-- A HIGH severity pothole with a small severity score. -/
def pScoreSmall : Pothole :=
  { latitude := 0, longitude := 0, severity := Severity.HIGH,
    severity_score := some 1 }

/-- An active ticket whose score order and severity order disagree: LOW
severity but score 10, created at time 1. -/
def tScoreBig : Ticket :=
  { id := "s1", status := Status.ACTIVE, created_at := 1,
    pothole_metadata := pScoreBig }

/-- An active ticket with HIGH severity but score 1, created at time 2. -/
def tScoreSmall : Ticket :=
  { id := "s2", status := Status.ACTIVE, created_at := 2,
    pothole_metadata := pScoreSmall }

/-- A ticket list on which the panel order and the map order disagree. -/
def panelEx : List Ticket := [tScoreSmall, tScoreBig]

/-- A LOW severity pothole at the origin. -/
def pLow : Pothole := { latitude := 0, longitude := 0, severity := Severity.LOW }

/-- A HIGH severity pothole at the origin. -/
def pHigh : Pothole := { latitude := 0, longitude := 0, severity := Severity.HIGH }

/-- An active LOW ticket created at time 0. -/
def tA : Ticket :=
  { id := "a", status := Status.ACTIVE, created_at := 0, pothole_metadata := pLow }

/-- An active HIGH ticket created at time 1. -/
def tB : Ticket :=
  { id := "b", status := Status.ACTIVE, created_at := 1, pothole_metadata := pHigh }

/-- An active LOW ticket created at time 1. -/
def tLow1 : Ticket :=
  { id := "t1", status := Status.ACTIVE, created_at := 1, pothole_metadata := pLow }

/-- An active HIGH ticket created at time 2. -/
def tHigh2 : Ticket :=
  { id := "t2", status := Status.ACTIVE, created_at := 2, pothole_metadata := pHigh }

/-- An active HIGH ticket created at time 3. -/
def tHigh3 : Ticket :=
  { id := "t3", status := Status.ACTIVE, created_at := 3, pothole_metadata := pHigh }

end RoadHero

namespace RoadHero

/-! ### Theorems for the sync controller claims -/

/-- Claim C2: an INSERT or UPDATE change-feed event triggers a full re-fetch
whose successful result wholesale replaces the canonical ticket list (after
a re-fetch returning N tickets the list has exactly N tickets), while a
DELETE event for id X removes every ticket with id X, issues no re-fetch,
and leaves all other tickets unchanged (the result is a sublist of the
previous list containing exactly the tickets whose id differs from X). -/
theorem C2_change_event (p : ChangePayload) (outcome : FetchOutcome)
    (tickets data : List Ticket) :
    ((p.eventType = EventType.INSERT ∨ p.eventType = EventType.UPDATE) →
      outcome = FetchOutcome.success data →
        (onChangeEvent p outcome tickets).1 = data ∧
        (onChangeEvent p outcome tickets).1.length = data.length ∧
        (onChangeEvent p outcome tickets).2 = true) ∧
    (p.eventType = EventType.DELETE →
        (onChangeEvent p outcome tickets).1.Sublist tickets ∧
        (∀ t, t ∈ (onChangeEvent p outcome tickets).1 ↔
          (t ∈ tickets ∧ t.id ≠ p.oldId)) ∧
        (onChangeEvent p outcome tickets).2 = false) := by
  constructor
  · rintro (h | h) rfl <;>
      simp [onChangeEvent, h, fetchTickets]
  · intro h
    refine ⟨?_, ?_, ?_⟩
    · simp only [onChangeEvent, h]
      exact List.filter_sublist tickets
    · intro t
      simp [onChangeEvent, h, List.mem_filter]
    · simp [onChangeEvent, h]

/-- Witness for C2 at concrete inputs: an INSERT with a successful re-fetch
returning one ticket, and a DELETE removing one of two tickets. -/
theorem C2_change_event_witness :
    ((onChangeEvent ⟨EventType.INSERT, ""⟩ (FetchOutcome.success [tA])
        []).1.length = 1 ∧
      (onChangeEvent ⟨EventType.INSERT, ""⟩ (FetchOutcome.success [tA])
        []).2 = true) ∧
    ((onChangeEvent ⟨EventType.DELETE, "a"⟩ FetchOutcome.failure
        [tA, tB]).1.Sublist [tA, tB] ∧
      (onChangeEvent ⟨EventType.DELETE, "a"⟩ FetchOutcome.failure
        [tA, tB]).2 = false) :=
  ⟨⟨((C2_change_event ⟨EventType.INSERT, ""⟩ _ [] [tA]).1 (Or.inl rfl) rfl).2.1,
    ((C2_change_event ⟨EventType.INSERT, ""⟩ _ [] [tA]).1 (Or.inl rfl) rfl).2.2⟩,
   ⟨((C2_change_event ⟨EventType.DELETE, "a"⟩ FetchOutcome.failure [tA, tB] []).2
      rfl).1,
    ((C2_change_event ⟨EventType.DELETE, "a"⟩ FetchOutcome.failure [tA, tB] []).2
      rfl).2.2⟩⟩

/-- Claim C6: if the initial or refresh ticket load fails, the canonical
list is left exactly unchanged (the handler returns early; there is no
retry path in the source, a failed load is a single no-op attempt). -/
theorem C6_fetch_error_keeps_list (tickets : List Ticket) :
    fetchTickets FetchOutcome.failure tickets = tickets := rfl

/-- Claim C9: the local optimistic ticket state is updated exactly when the
remote update succeeds: on failure the list is unchanged; on success an
entry with a different id is untouched, and an entry with the target id
changes only its status field (all other fields are copied). -/
theorem C9_optimistic_iff_remote (remote : RemoteResult) (id : String)
    (newStatus : Status) (tickets : List Ticket) :
    (remote = RemoteResult.err →
      updateStatus remote id newStatus tickets = tickets) ∧
    (remote = RemoteResult.ok →
      (updateStatus remote id newStatus tickets).length = tickets.length ∧
      (∀ (i : Nat) (t : Ticket), tickets[i]? = some t → t.id ≠ id →
        (updateStatus remote id newStatus tickets)[i]? = some t) ∧
      (∀ (i : Nat) (t : Ticket), tickets[i]? = some t → t.id = id →
        (updateStatus remote id newStatus tickets)[i]? =
          some { t with status := newStatus })) := by
  constructor
  · rintro rfl
    rfl
  · rintro rfl
    refine ⟨by simp [updateStatus, handleUpdate], ?_, ?_⟩
    · intro i t ht hid
      simp [updateStatus, handleUpdate, List.getElem?_map, ht, hid]
    · intro i t ht hid
      simp [updateStatus, handleUpdate, List.getElem?_map, ht, hid]

/-- Witness for C9 at a concrete input: a successful remote update of the
first of two tickets, and a failed one leaving the list unchanged. -/
theorem C9_optimistic_iff_remote_witness :
    (updateStatus RemoteResult.err "a" Status.COMPLETE [tA] = [tA]) ∧
    ((updateStatus RemoteResult.ok "a" Status.COMPLETE [tA, tB])[0]? =
      some { tA with status := Status.COMPLETE } ∧
     (updateStatus RemoteResult.ok "a" Status.COMPLETE [tA, tB])[1]? =
      some tB) :=
  ⟨(C9_optimistic_iff_remote RemoteResult.err "a" Status.COMPLETE [tA]).1 rfl,
   ((C9_optimistic_iff_remote RemoteResult.ok "a" Status.COMPLETE
      [tA, tB]).2 rfl).2.2 0 tA rfl rfl,
   ((C9_optimistic_iff_remote RemoteResult.ok "a" Status.COMPLETE
      [tA, tB]).2 rfl).2.1 1 tB rfl (by decide)⟩

/-! ### Theorems for the RouteFetcher claims -/

/-- Claim C3 counterexample: with the nearest-neighbor mode on and a failed
fetch, the fallback polyline follows the incoming coordinate order, not the
order passed to the fetch.  For the stops (0,0), (5,0), (1,0) the fetched
order is (0,0), (1,0), (5,0), yet the fallback connects (0,0), (5,0), (1,0);
so the claim, which says the fallback follows the fetched (nearest-neighbor)
order, fails at this input. -/
theorem C3_fallback_not_fetch_order :
    routeOrder true cexCoords = [(0, 0), (1, 0), (5, 0)] ∧
    routeOrder true cexCoords ≠ cexCoords ∧
    (fetchOptimalRoute true cexCoords FetchResult.networkError).provenance =
      Provenance.fallback ∧
    (fetchOptimalRoute true cexCoords FetchResult.networkError).points ≠
      (routeOrder true cexCoords).map swap ∧
    (fetchOptimalRoute true cexCoords FetchResult.networkError).points =
      cexCoords.map swap := by
  have hord : optimizeOrder cexCoords = [(0, 0), (1, 0), (5, 0)] := by
    norm_num [cexCoords, optimizeOrder, nnLoop, nearestIdx, nearestScan,
      dist2, List.eraseIdx, List.getD]
  have hro : routeOrder true cexCoords = [(0, 0), (1, 0), (5, 0)] := hord
  exact ⟨hro, by rw [hro]; decide, rfl, by rw [hro]; decide, rfl⟩

/-- Claim C3 (amended): for every ordering mode, whenever the route fetch
fails (network error, malformed or non-Ok response, or empty route list),
the result is a straight-line polyline connecting the input points in the
incoming input order (the order the component received, which is not the
nearest-neighbor order when that mode is selected), tagged as fallback
provenance, and it is nonempty for nonempty input. -/
theorem C3_fallback_input_order (optimizeRoute : Bool) (coords : List Coord)
    (resp : FetchResult) (hfail : FetchFailed resp) :
    (fetchOptimalRoute optimizeRoute coords resp).points = coords.map swap ∧
    (fetchOptimalRoute optimizeRoute coords resp).provenance =
      Provenance.fallback ∧
    (coords ≠ [] →
      (fetchOptimalRoute optimizeRoute coords resp).points ≠ []) := by
  have hmap : coords ≠ [] → coords.map swap ≠ [] := by
    intro h hm
    exact h (List.map_eq_nil_iff.mp hm)
  cases resp with
  | networkError =>
      exact ⟨rfl, rfl, fun h => hmap h⟩
  | ok data =>
      cases hroutes : data.routes with
      | nil =>
          refine ⟨?_, ?_, ?_⟩ <;>
            simp [fetchOptimalRoute, hroutes, hmap]
      | cons r rs =>
          have hcode : ¬data.code = "Ok" := by
            intro hc
            exact hfail ⟨hc, by simp [hroutes]⟩
          refine ⟨?_, ?_, ?_⟩ <;>
            simp [fetchOptimalRoute, hroutes, hcode, hmap]

/-- Witness for the amended C3 at a concrete input: a network error on two
stops in preserve mode yields the straight-line fallback. -/
theorem C3_fallback_input_order_witness :
    (fetchOptimalRoute false [((0 : ℚ), (0 : ℚ)), (1, 1)]
        FetchResult.networkError).points =
      ([((0 : ℚ), (0 : ℚ)), (1, 1)] : List Coord).map swap ∧
    (fetchOptimalRoute false [((0 : ℚ), (0 : ℚ)), (1, 1)]
        FetchResult.networkError).provenance = Provenance.fallback :=
  ⟨(C3_fallback_input_order false [((0 : ℚ), (0 : ℚ)), (1, 1)]
      FetchResult.networkError trivial).1,
   (C3_fallback_input_order false [((0 : ℚ), (0 : ℚ)), (1, 1)]
      FetchResult.networkError trivial).2.1⟩

/-- Claim C7: given a service response with code Ok and a first route, the
drawn polyline is exactly the (lat, lon)-swapped sequence of that route
geometry, in the same order and of the same length, with service
provenance. -/
theorem C7_ok_geometry_swapped (optimizeRoute : Bool) (coords : List Coord)
    (data : OsrmData) (route : OsrmRoute) (rs : List OsrmRoute)
    (hcode : data.code = "Ok") (hroutes : data.routes = route :: rs) :
    (fetchOptimalRoute optimizeRoute coords (FetchResult.ok data)).points =
      route.coordinates.map swap ∧
    (fetchOptimalRoute optimizeRoute coords
        (FetchResult.ok data)).points.length = route.coordinates.length ∧
    (∀ i : Nat,
      (fetchOptimalRoute optimizeRoute coords
          (FetchResult.ok data)).points[i]? =
        (route.coordinates[i]?).map swap) ∧
    (fetchOptimalRoute optimizeRoute coords
        (FetchResult.ok data)).provenance = Provenance.service := by
  refine ⟨?_, ?_, ?_, ?_⟩ <;>
    simp [fetchOptimalRoute, hroutes, hcode, List.getElem?_map]

/-- Witness for C7 at a concrete input: an Ok response whose single route
has two (lon, lat) points. -/
theorem C7_ok_geometry_swapped_witness :
    (fetchOptimalRoute false []
        (FetchResult.ok ⟨"Ok", [⟨[(1, 2), (3, 4)]⟩]⟩)).points =
      ([((1 : ℚ), (2 : ℚ)), (3, 4)] : List Coord).map swap ∧
    (fetchOptimalRoute false []
        (FetchResult.ok ⟨"Ok", [⟨[(1, 2), (3, 4)]⟩]⟩)).provenance =
      Provenance.service :=
  ⟨(C7_ok_geometry_swapped false [] ⟨"Ok", [⟨[(1, 2), (3, 4)]⟩]⟩
      ⟨[(1, 2), (3, 4)]⟩ [] rfl rfl).1,
   (C7_ok_geometry_swapped false [] ⟨"Ok", [⟨[(1, 2), (3, 4)]⟩]⟩
      ⟨[(1, 2), (3, 4)]⟩ [] rfl rfl).2.2.2⟩

/-! ### Theorems for the derived orderings -/

/-- The severity weights are injective. -/
theorem severityWeights_inj (s t : Severity) :
    severityWeights s = severityWeights t → s = t := by
  cases s <;> cases t <;> decide

/-- The comparator relation of the map sort agrees with the ordering the
spec states: severity descending, ties broken by newest creation time. -/
theorem ticketLE_iff (a b : Ticket) : ticketLE a b ↔ SpecOrder a b := by
  rcases eq_or_ne (severityWeights b.pothole_metadata.severity)
      (severityWeights a.pothole_metadata.severity) with h | h
  · have hsev : b.pothole_metadata.severity = a.pothole_metadata.severity :=
      severityWeights_inj _ _ h
    simp only [ticketLE, ticketCompare, SpecOrder, h, sub_self, ne_eq,
      not_true_eq_false, if_false, lt_self_iff_false, false_or, ite_not]
    constructor
    · intro hle
      exact ⟨hsev, by omega⟩
    · intro ⟨_, hle⟩
      simpa using by omega
  · have hsev : ¬b.pothole_metadata.severity = a.pothole_metadata.severity :=
      fun hs => h (by rw [hs])
    simp only [ticketLE, ticketCompare, SpecOrder, hsev, false_and, or_false]
    constructor
    · intro hle
      rw [if_pos (by omega)] at hle
      omega
    · intro hlt
      rw [if_pos (by omega)]
      omega

/-- Claim C5: the derived active-ticket list contains exactly the tickets
with status ACTIVE (it is a permutation of the ACTIVE filter of the input),
it is sorted by severity descending with ties broken by creation timestamp
descending, and the sort is stable: a pair that agrees on severity and
creation time keeps its input order. -/
theorem C5_active_sort (tickets : List Ticket) :
    (∀ t ∈ activeTickets tickets, t.status = Status.ACTIVE) ∧
    (activeTickets tickets).Perm
      (tickets.filter (fun t => decide (t.status = Status.ACTIVE))) ∧
    (activeTickets tickets).Sorted SpecOrder ∧
    (∀ a b : Ticket,
      a.pothole_metadata.severity = b.pothole_metadata.severity →
      a.created_at = b.created_at →
      List.Sublist [a, b]
        (tickets.filter (fun t => decide (t.status = Status.ACTIVE))) →
      List.Sublist [a, b] (activeTickets tickets)) := by
  refine ⟨?_, ?_, ?_, ?_⟩
  · intro t ht
    have ht' : t ∈ tickets.filter (fun t => decide (t.status = Status.ACTIVE)) :=
      (List.mem_insertionSort ticketLE).mp ht
    have := (List.mem_filter.mp ht').2
    exact of_decide_eq_true this
  · exact List.perm_insertionSort ticketLE _
  · exact (List.sorted_insertionSort ticketLE _).imp
      (fun hab => (ticketLE_iff _ _).mp hab)
  · intro a b hsev ht hsub
    refine List.pair_sublist_insertionSort ?_ hsub
    rw [ticketLE_iff]
    exact Or.inr ⟨hsev.symm, le_of_eq ht.symm⟩

/-- Witness for C5 at the concrete input from the spec: severities
LOW at time 1, HIGH at time 2, HIGH at time 3 sort to HIGH at 3, HIGH at 2,
LOW at 1. -/
theorem C5_active_sort_witness :
    activeTickets [tLow1, tHigh2, tHigh3] = [tHigh3, tHigh2, tLow1] ∧
    (activeTickets [tLow1, tHigh2, tHigh3]).Sorted SpecOrder ∧
    (activeTickets [tLow1, tHigh2, tHigh3]).Perm
      ([tLow1, tHigh2, tHigh3].filter
        (fun t => decide (t.status = Status.ACTIVE))) :=
  ⟨by decide, (C5_active_sort [tLow1, tHigh2, tHigh3]).2.2.1,
   (C5_active_sort [tLow1, tHigh2, tHigh3]).2.1⟩

/-- Claim C10: the list panel orders tickets by numeric severity_score
descending with an absent score read as 0: the displayed list is a
permutation of the input sorted so that scores never increase, a ticket
without a score never precedes a ticket with a positive score, and the
resulting order can differ from the map ordering (severity enum and
creation time), as the concrete list panelEx shows. -/
theorem C10_panel_score_order (tickets : List Ticket) :
    (sorted tickets).Perm tickets ∧
    (sorted tickets).Sorted (fun a b => scoreOf b ≤ scoreOf a) ∧
    (∀ a b : Ticket, a.pothole_metadata.severity_score = none →
      0 < scoreOf b → ¬List.Sublist [a, b] (sorted tickets)) ∧
    sorted panelEx ≠ activeTickets panelEx := by
  have hsorted : (sorted tickets).Sorted (fun a b => scoreOf b ≤ scoreOf a) :=
    (List.sorted_insertionSort panelLE _).imp
      (fun hab => sub_nonpos.mp hab)
  refine ⟨List.perm_insertionSort panelLE _, hsorted, ?_, ?_⟩
  · intro a b hnone hpos hsub
    have hpair : List.Pairwise (fun a b => scoreOf b ≤ scoreOf a) [a, b] :=
      hsorted.sublist hsub
    have hle : scoreOf b ≤ scoreOf a :=
      (List.pairwise_cons.mp hpair).1 b (by simp)
    have ha : scoreOf a = 0 := by simp [scoreOf, hnone]
    rw [ha] at hle
    exact absurd (lt_of_lt_of_le hpos hle) (lt_irrefl 0)
  · have h1 : sorted panelEx = [tScoreBig, tScoreSmall] := by
      norm_num [sorted, panelEx, List.insertionSort, List.orderedInsert,
        panelLE, scoreOf, sub_nonpos, tScoreBig, tScoreSmall, pScoreBig,
        pScoreSmall]
    have h2 : activeTickets panelEx = [tScoreSmall, tScoreBig] := by decide
    rw [h1, h2]
    decide

/-- Witness for C10 at the concrete input panelEx. -/
theorem C10_panel_score_order_witness :
    (sorted panelEx).Perm panelEx ∧
    (sorted panelEx).Sorted (fun a b => scoreOf b ≤ scoreOf a) ∧
    sorted panelEx ≠ activeTickets panelEx :=
  ⟨(C10_panel_score_order panelEx).1, (C10_panel_score_order panelEx).2.1,
   (C10_panel_score_order panelEx).2.2.2⟩

/-! ### Theorems for the render lifecycle claims -/

/-- Membership after a guarded removal: a surviving layer was present
before and differs from the removed ref. -/
theorem mem_removeIfHas {layers : List Layer} {ref : Option Layer}
    {x : Layer} (hnd : layers.Nodup) (hx : x ∈ removeIfHas layers ref) :
    x ∈ layers ∧ ∀ l, ref = some l → x ≠ l := by
  cases ref with
  | none =>
      exact ⟨hx, by simp⟩
  | some l =>
      rw [removeIfHas] at hx
      by_cases hmem : l ∈ layers
      · rw [if_pos hmem] at hx
        have := (List.Nodup.mem_erase_iff hnd).mp hx
        exact ⟨this.2, fun l' hl' => by
          cases Option.some.inj hl'
          exact this.1⟩
      · rw [if_neg hmem] at hx
        exact ⟨hx, fun l' hl' => by
          cases Option.some.inj hl'
          intro hxl
          exact hmem (hxl ▸ hx)⟩

/-- A guarded removal preserves distinctness of the attached layers. -/
theorem nodup_removeIfHas {layers : List Layer} {ref : Option Layer}
    (hnd : layers.Nodup) : (removeIfHas layers ref).Nodup := by
  cases ref with
  | none => exact hnd
  | some l =>
      rw [removeIfHas]
      by_cases hmem : l ∈ layers
      · rw [if_pos hmem]
        exact hnd.erase l
      · rw [if_neg hmem]
        exact hnd

/-- Claim C8: whenever the active stop set has fewer than two points, the
effect body removes the existing route visuals, clears the loading
indicator and the calculating flag, and starts no calculation.  The
hypotheses state the leaflet invariants: layers are attached at most once,
and every attached route layer is tracked by one of the two refs. -/
theorem C8_below_threshold (n : Nat) (s : MapState) (hn : n < 2)
    (hnd : s.layers.Nodup)
    (htracked : ∀ l ∈ s.layers,
      s.routePolyline = some l ∨ s.decorator = some l) :
    (effectRun n s).1.layers = [] ∧
    (effectRun n s).1.loading = false ∧
    (effectRun n s).1.isCalculating = false ∧
    (effectRun n s).2 = false := by
  rw [effectRun, if_pos hn]
  refine ⟨?_, rfl, rfl, rfl⟩
  show removeIfHas (removeIfHas s.layers s.routePolyline) s.decorator = []
  rw [List.eq_nil_iff_forall_not_mem]
  intro l hl
  have h1 := mem_removeIfHas (nodup_removeIfHas hnd) hl
  have h2 := mem_removeIfHas hnd h1.1
  rcases htracked l h2.1 with hp | hd
  · exact h2.2 l hp rfl
  · exact h1.2 l hd rfl

/-- Witness for C8 at a concrete input: one active ticket while a polyline
from an earlier route is attached and tracked. -/
theorem C8_below_threshold_witness :
    (effectRun 1 ⟨true, true, [⟨1, false⟩], some ⟨1, false⟩, none⟩).1.layers =
      [] ∧
    (effectRun 1 ⟨true, true, [⟨1, false⟩], some ⟨1, false⟩,
      none⟩).1.loading = false ∧
    (effectRun 1 ⟨true, true, [⟨1, false⟩], some ⟨1, false⟩,
      none⟩).1.isCalculating = false ∧
    (effectRun 1 ⟨true, true, [⟨1, false⟩], some ⟨1, false⟩, none⟩).2 =
      false :=
  C8_below_threshold 1 ⟨true, true, [⟨1, false⟩], some ⟨1, false⟩, none⟩
    (by decide) (by decide) (by decide)

/-- Claim C4, evaluated at the failing schedule: after trigger 1 starts a
calculation, a retrigger runs the cleanup and trigger 2 raises the shared
isCalculatingRef flag again, so the completion of fetch 1 passes the
liveness check, installs its visuals and lowers the flag, and the
completion of fetch 2 then bails out.  Both completions settled, exactly
one route visual is on the map, but it is the one of the FIRST trigger,
against the claim that the second trigger wins. -/
theorem C4_shared_flag_first_completion_wins :
    (runTrace initState raceTrace).layers =
      [⟨1, false⟩, ⟨1, true⟩] ∧
    (runTrace initState raceTrace).routePolyline = some ⟨1, false⟩ ∧
    (runTrace initState raceTrace).isCalculating = false ∧
    (runTrace initState raceTrace).loading = false := by
  decide

/-! ### Theorems for the nearest-neighbor orderer -/

/-- If no element of the remaining list beats the running minimum, the scan
keeps its current best index. -/
theorem nearestScan_of_forall_le (last : Coord) (l : List Coord) :
    ∀ (idx : Nat) (m : ℚ) (best : Nat),
      (∀ c ∈ l, m ≤ dist2 last c) →
      nearestScan last l idx (some m) best = best := by
  induction l with
  | nil =>
      intro idx m best _
      rfl
  | cons c rest ih =>
      intro idx m best h
      simp only [nearestScan]
      rw [if_neg (not_lt.mpr (h c (List.mem_cons_self c rest)))]
      exact ih (idx + 1) m best (fun x hx => h x (List.mem_cons_of_mem c hx))

/-- If some element of the remaining list beats the running minimum, the
scan returns the offset position of the first element realizing the minimum
distance over the remaining list. -/
theorem nearestScan_of_exists_lt (last : Coord) (l : List Coord) :
    ∀ (idx : Nat) (m : ℚ) (best : Nat),
      (∃ c ∈ l, dist2 last c < m) →
      ∃ j p, j < l.length ∧ l[j]? = some p ∧
        nearestScan last l idx (some m) best = idx + j ∧
        dist2 last p < m ∧
        (∀ q ∈ l, dist2 last p ≤ dist2 last q) ∧
        (∀ k, k < j → ∀ q, l[k]? = some q → dist2 last p < dist2 last q) := by
  induction l with
  | nil =>
      rintro idx m best ⟨c, hc, -⟩
      cases hc
  | cons c rest ih =>
      intro idx m best hex
      by_cases hlt : dist2 last c < m
      · by_cases hex2 : ∃ q ∈ rest, dist2 last q < dist2 last c
        · obtain ⟨j, p, hjlen, hjp, heq, hpm, hmin, hfirst⟩ :=
            ih (idx + 1) (dist2 last c) idx hex2
          refine ⟨j + 1, p, by simpa using Nat.succ_lt_succ hjlen,
            by simpa using hjp, ?_, lt_trans hpm hlt, ?_, ?_⟩
          · simp only [nearestScan]
            rw [if_pos hlt, heq]
            omega
          · intro q hq
            rcases List.mem_cons.mp hq with rfl | hq'
            · exact le_of_lt hpm
            · exact hmin q hq'
          · intro k hk q hkq
            cases k with
            | zero =>
                rw [List.getElem?_cons_zero] at hkq
                cases Option.some.inj hkq
                exact hpm
            | succ k' =>
                rw [List.getElem?_cons_succ] at hkq
                exact hfirst k' (by omega) q hkq
        · push_neg at hex2
          refine ⟨0, c, by simp, by simp, ?_, hlt, ?_, ?_⟩
          · simp only [nearestScan]
            rw [if_pos hlt,
              nearestScan_of_forall_le last rest (idx + 1) (dist2 last c) idx
                hex2]
            omega
          · intro q hq
            rcases List.mem_cons.mp hq with rfl | hq'
            · exact le_refl _
            · exact hex2 q hq'
          · intro k hk q hkq
            exact absurd hk (Nat.not_lt_zero k)
      · have hex' : ∃ q ∈ rest, dist2 last q < m := by
          obtain ⟨x, hx, hxm⟩ := hex
          rcases List.mem_cons.mp hx with rfl | hx'
          · exact absurd hxm hlt
          · exact ⟨x, hx', hxm⟩
        obtain ⟨j, p, hjlen, hjp, heq, hpm, hmin, hfirst⟩ :=
          ih (idx + 1) m best hex'
        have hm_le : m ≤ dist2 last c := not_lt.mp hlt
        refine ⟨j + 1, p, by simpa using Nat.succ_lt_succ hjlen,
          by simpa using hjp, ?_, hpm, ?_, ?_⟩
        · simp only [nearestScan]
          rw [if_neg hlt, heq]
          omega
        · intro q hq
          rcases List.mem_cons.mp hq with rfl | hq'
          · exact le_of_lt (lt_of_lt_of_le hpm hm_le)
          · exact hmin q hq'
        · intro k hk q hkq
          cases k with
          | zero =>
              rw [List.getElem?_cons_zero] at hkq
              cases Option.some.inj hkq
              exact lt_of_lt_of_le hpm hm_le
          | succ k' =>
              rw [List.getElem?_cons_succ] at hkq
              exact hfirst k' (by omega) q hkq

/-- The chosen index points at an element of minimum distance, and every
earlier index is strictly farther, so on an exact tie the first-encountered
minimum wins. -/
theorem nearestIdx_spec (last : Coord) (l : List Coord) (hne : l ≠ []) :
    ∃ p, l[nearestIdx last l]? = some p ∧
      (∀ q ∈ l, dist2 last p ≤ dist2 last q) ∧
      (∀ k, k < nearestIdx last l → ∀ q, l[k]? = some q →
        dist2 last p < dist2 last q) := by
  cases l with
  | nil => exact absurd rfl hne
  | cons c rest =>
      have hstep : nearestIdx last (c :: rest) =
          nearestScan last rest 1 (some (dist2 last c)) 0 := rfl
      by_cases hex : ∃ q ∈ rest, dist2 last q < dist2 last c
      · obtain ⟨j, p, hjlen, hjp, heq, hpm, hmin, hfirst⟩ :=
          nearestScan_of_exists_lt last rest 1 (dist2 last c) 0 hex
        have hidx : nearestIdx last (c :: rest) = j + 1 := by
          rw [hstep, heq]
          omega
        refine ⟨p, ?_, ?_, ?_⟩
        · rw [hidx, List.getElem?_cons_succ]
          exact hjp
        · intro q hq
          rcases List.mem_cons.mp hq with rfl | hq'
          · exact le_of_lt hpm
          · exact hmin q hq'
        · intro k hk q hkq
          rw [hidx] at hk
          cases k with
          | zero =>
              rw [List.getElem?_cons_zero] at hkq
              cases Option.some.inj hkq
              exact hpm
          | succ k' =>
              rw [List.getElem?_cons_succ] at hkq
              exact hfirst k' (by omega) q hkq
      · push_neg at hex
        have hidx : nearestIdx last (c :: rest) = 0 := by
          rw [hstep,
            nearestScan_of_forall_le last rest 1 (dist2 last c) 0 hex]
        refine ⟨c, by rw [hidx, List.getElem?_cons_zero], ?_, ?_⟩
        · intro q hq
          rcases List.mem_cons.mp hq with rfl | hq'
          · exact le_refl _
          · exact hex q hq'
        · intro k hk q hkq
          rw [hidx] at hk
          exact absurd hk (Nat.not_lt_zero k)

/-- The chosen index is in range for a nonempty unvisited list. -/
theorem nearestIdx_lt (last : Coord) (l : List Coord) (hne : l ≠ []) :
    nearestIdx last l < l.length := by
  obtain ⟨p, hp, -, -⟩ := nearestIdx_spec last l hne
  by_contra hnot
  rw [List.getElem?_eq_none (Nat.le_of_not_lt hnot)] at hp
  cases hp

/-- A getD read at a position holding p yields p. -/
theorem getD_of_getElem? {α : Type _} {l : List α} {i : Nat} {p d : α}
    (h : l[i]? = some p) : l.getD i d = p := by
  rw [List.getD_eq_getElem?_getD, h]
  rfl

/-- Splicing the element at a valid index back in front of the erased list
permutes the original list. -/
theorem cons_get_eraseIdx_perm {α : Type _} (l : List α) :
    ∀ (i : Nat) (h : i < l.length),
      List.Perm (l.get ⟨i, h⟩ :: l.eraseIdx i) l := by
  induction l with
  | nil =>
      intro i h
      simp at h
  | cons c rest ih =>
      intro i h
      cases i with
      | zero => exact List.Perm.refl _
      | succ i' =>
          have hi : i' < rest.length := by simpa using h
          have h1 : (c :: rest).get ⟨i' + 1, h⟩ = rest.get ⟨i', hi⟩ := rfl
          have h2 : (c :: rest).eraseIdx (i' + 1) = c :: rest.eraseIdx i' := rfl
          rw [h1, h2]
          exact (List.Perm.swap c _ _).trans (List.Perm.cons c (ih i' hi))

/-- The greedy loop emits a permutation of the unvisited list when run with
fuel equal to its length. -/
theorem nnLoop_perm :
    ∀ (fuel : Nat) (last : Coord) (l : List Coord), l.length = fuel →
      List.Perm (nnLoop last fuel l) l := by
  intro fuel
  induction fuel with
  | zero =>
      intro last l hl
      rw [List.length_eq_zero] at hl
      subst hl
      exact List.Perm.refl _
  | succ n ih =>
      intro last l hl
      cases l with
      | nil => simp at hl
      | cons c rest =>
          have hne : (c :: rest) ≠ [] := by simp
          have hlt := nearestIdx_lt last (c :: rest) hne
          obtain ⟨p, hp, -, -⟩ := nearestIdx_spec last (c :: rest) hne
          have hgd : (c :: rest).getD (nearestIdx last (c :: rest)) c = p :=
            getD_of_getElem? hp
          have hget : (c :: rest).get ⟨nearestIdx last (c :: rest), hlt⟩ = p := by
            have := List.getElem?_eq_getElem hlt
            rw [this] at hp
            exact Option.some.inj hp
          have hlen' :
              ((c :: rest).eraseIdx (nearestIdx last (c :: rest))).length = n := by
            rw [List.length_eraseIdx, if_pos hlt]
            omega
          show List.Perm
            ((c :: rest).getD (nearestIdx last (c :: rest)) c ::
              nnLoop ((c :: rest).getD (nearestIdx last (c :: rest)) c) n
                ((c :: rest).eraseIdx (nearestIdx last (c :: rest))))
            (c :: rest)
          rw [hgd]
          exact (List.Perm.cons p (ih p _ hlen')).trans
            (hget ▸ cons_get_eraseIdx_perm (c :: rest) _ hlt)

/-- The greedy loop satisfies the NNChain contract when run with fuel equal
to the length of the unvisited list. -/
theorem nnLoop_chain :
    ∀ (fuel : Nat) (last : Coord) (l : List Coord), l.length = fuel →
      NNChain last l (nnLoop last fuel l) := by
  intro fuel
  induction fuel with
  | zero =>
      intro last l hl
      rw [List.length_eq_zero] at hl
      subst hl
      exact NNChain.nil last
  | succ n ih =>
      intro last l hl
      cases l with
      | nil => simp at hl
      | cons c rest =>
          have hne : (c :: rest) ≠ [] := by simp
          have hlt := nearestIdx_lt last (c :: rest) hne
          obtain ⟨p, hp, hmin, hfirst⟩ := nearestIdx_spec last (c :: rest) hne
          have hgd : (c :: rest).getD (nearestIdx last (c :: rest)) c = p :=
            getD_of_getElem? hp
          have hlen' :
              ((c :: rest).eraseIdx (nearestIdx last (c :: rest))).length = n := by
            rw [List.length_eraseIdx, if_pos hlt]
            omega
          show NNChain last (c :: rest)
            ((c :: rest).getD (nearestIdx last (c :: rest)) c ::
              nnLoop ((c :: rest).getD (nearestIdx last (c :: rest)) c) n
                ((c :: rest).eraseIdx (nearestIdx last (c :: rest))))
          rw [hgd]
          exact NNChain.cons last (c :: rest) p _ (nearestIdx last (c :: rest))
            hp hmin hfirst (ih p _ hlen')

/-- Claim C1: for every list of at least two distinct stops, the
nearest-neighbor ordering produces a permutation of the input that starts
with the first input point, and whose tail is a greedy nearest-neighbor
chain over the remaining stops: each appended point is an unvisited point
of minimum Euclidean distance (in raw degree space) to the previously
appended point, and on an exact distance tie the first-encountered minimum
in the enumeration order of the unvisited list is chosen. -/
theorem C1_nearest_neighbor_order (coords : List Coord)
    (hlen : 2 ≤ coords.length) (hnd : coords.Nodup) :
    List.Perm (optimizeOrder coords) coords ∧
    (optimizeOrder coords).head? = coords.head? ∧
    (∀ c rest, coords = c :: rest →
      NNChain c rest (optimizeOrder coords).tail) := by
  cases coords with
  | nil => simp at hlen
  | cons c rest =>
      refine ⟨?_, rfl, ?_⟩
      · show List.Perm (c :: nnLoop c rest.length rest) (c :: rest)
        exact List.Perm.cons c (nnLoop_perm rest.length c rest rfl)
      · rintro c' rest' heq
        injection heq with h1 h2
        subst h1
        subst h2
        show NNChain c rest (nnLoop c rest.length rest)
        exact nnLoop_chain rest.length c rest rfl

/-- Witness for C1 at the concrete stops (0,0), (5,0), (1,0). -/
theorem C1_nearest_neighbor_order_witness :
    2 ≤ cexCoords.length ∧ cexCoords.Nodup ∧
    List.Perm (optimizeOrder cexCoords) cexCoords ∧
    (optimizeOrder cexCoords).head? = cexCoords.head? :=
  ⟨by decide, by decide,
   (C1_nearest_neighbor_order cexCoords (by decide) (by decide)).1,
   (C1_nearest_neighbor_order cexCoords (by decide) (by decide)).2.1⟩

end RoadHero
